import Mathlib

/-! Employee service (`main.go`): handlers over an explicit collection state

The four route handlers of `main.go` (`getAllEmployees`, `getEmployee`,
`updateEmployee`, `deleteEmployee`) are embedded as pure functions

    handler : Env → Request → Collection → Outcome

where `Collection` is the content of the `employees` collection before the
call, `Env` holds what the handler cannot control (the object id the driver
generates for a new document and the failures the backend may report), and
`Outcome` is the HTTP response, the collection after the call and the list of
driver calls issued.

The Fiber context and the MongoDB driver are external libraries; the part of
their behaviour the handlers rely on is written out below
(`ObjectIDFromHex`, `BodyParser`, `SendStatus`, `InsertOne`, ...).
-/

namespace EmployeeService

/-! ## Values -/

/-- Go `float64`.  The handlers never compute with salaries or ages, they only
carry them between request body, collection and response, so a value is
represented by the number it denotes. -/
abbrev Float64 := ℚ

/-- Go `byte`. -/
abbrev Byte := Fin 256

/-- The driver type `primitive.ObjectID`, Go `[12]byte`. -/
def ObjectID := { bs : List Byte // bs.length = 12 }

instance : DecidableEq ObjectID := inferInstanceAs (DecidableEq { bs : List Byte // bs.length = 12 })

/-- Go `encoding/hex`: the lower-case digit table used by the encoder. -/
def hextable : String := "0123456789abcdef"

/-- Digit `hextable[n]`. -/
def hexDigit (n : Nat) : Char := hextable.data.getD n '0'

/-- Go `hex.fromHexChar`: the value of one hex digit; digits `0-9`, `a-f` and
`A-F` are all accepted. -/
def fromHexChar (c : Char) : Option Nat :=
  let n := c.toNat
  if 48 ≤ n ∧ n ≤ 57 then some (n - 48)
  else if 97 ≤ n ∧ n ≤ 102 then some (n - 97 + 10)
  else if 65 ≤ n ∧ n ≤ 70 then some (n - 65 + 10)
  else none

/-- Go `hex.Encode`: two digits per byte, high nibble first (`v >> 4`,
`v & 0x0f`). -/
def hexEncode : List Byte → List Char
  | [] => []
  | v :: vs => hexDigit (v.val / 16) :: hexDigit (v.val % 16) :: hexEncode vs

/-- Go `hex.DecodeString`: consumes the digits in pairs, `(a << 4) | b`;
fails (`none`) on a character that is not a hex digit and on an odd number of
digits. -/
def hexDecode : List Char → Option (List Byte)
  | [] => some []
  | [_] => none
  | c :: d :: rest =>
    match fromHexChar c, fromHexChar d with
    | some a, some b =>
      match hexDecode rest with
      | some bs => some (Fin.ofNat (16 * a + b) :: bs)
      | none => none
    | _, _ => none

/-- Driver error text `primitive.ErrInvalidHex`. -/
def ErrInvalidHex : String := "the provided hex string is not a valid ObjectID"

/-- Driver `primitive.ObjectIDFromHex`: decode the hex string and require
exactly 12 bytes.  The string is read character by character: a character
outside ASCII is no hex digit, as none of its bytes is, and a string of hex
digits has one byte per character, so the result is that of the byte-wise
decoder. -/
def ObjectIDFromHex (s : String) : Except String ObjectID :=
  match hexDecode s.data with
  | none => .error "encoding/hex: invalid byte"
  | some b => if h : b.length = 12 then .ok ⟨b, h⟩ else .error ErrInvalidHex

/-- Driver `ObjectID.Hex`: the 24-digit lower-case hex form. -/
def ObjectID.Hex (id : ObjectID) : String := ⟨hexEncode id.val⟩

/-! ## Data model -/

/-- Go `type Employee struct` (`main.go`, lines 30-35). -/
structure Employee where
  ID : String
  Name : String
  Salary : Float64
  Age : Float64
deriving DecidableEq

/-- The zero value `new(Employee)` / `&Employee{}`. -/
def Employee.zero : Employee := ⟨"", "", 0, 0⟩

/-- The value of the `_id` key of a stored document.  The struct tag
`bson:"_id,omitempty"` on the string field `ID` leaves two possibilities: the
key is left out of the encoded document and the driver adds a generated
object id, or a non-empty `ID` is written as a string. -/
inductive BsonID
  | objectID (id : ObjectID)
  | string (s : String)
deriving DecidableEq

/-- A stored document: the BSON encoding of an `Employee` (keys `_id`, `name`,
`salary`, `age`: the lower-cased field names). -/
structure Document where
  _id : BsonID
  name : String
  salary : Float64
  age : Float64
deriving DecidableEq

/-- Content of the `employees` collection, in natural order. -/
abbrev Collection := List Document

/-- The database keeps `_id` unique within a collection. -/
def UniqueIds (db : Collection) : Prop := (db.map (fun d => d._id)).Nodup

instance (db : Collection) : Decidable (UniqueIds db) := by
  unfold UniqueIds; infer_instance

/-- BSON decoding of a stored document into an `Employee`: an object id is
decoded into the string field as its hex form. -/
def decodeDocument (d : Document) : Employee :=
  { ID := match d._id with
          | .objectID id => id.Hex
          | .string s => s,
    Name := d.name, Salary := d.salary, Age := d.age }

/-! ## Requests and the environment -/

/-- A request body as `BodyParser` sees it: either it cannot be decoded into an
`Employee` (bad JSON, wrong content type, a field of the wrong type), with the
parser's error text, or it is an object in which each of the four known keys is
present or absent.  `idNotString` is the object whose `id` key holds a JSON
value that is not a string (a number, say): `ID` is a Go `string`, so the
decoder reports an error, with the text `err`. -/
inductive RequestBody
  | malformed (err : String)
  | object (id name : Option String) (salary age : Option Float64)
  | idNotString (err : String) (name : Option String) (salary age : Option Float64)
deriving DecidableEq

/-- What a handler reads from the Fiber context: the route parameter `id` and
the body. -/
structure Request where
  id : String
  body : RequestBody
deriving DecidableEq

/-- Fiber `c.Params(key)`: the only route parameter is `id`. -/
def Request.Params (req : Request) (key : String) : String :=
  if key = "id" then req.id else ""

/-- Fiber `c.BodyParser(out)`: the keys present in the body are written into
`out`, the other fields of `out` keep their value. -/
def BodyParser (body : RequestBody) (out : Employee) : Except String Employee :=
  match body with
  | .malformed err => .error err
  | .object id name salary age =>
    .ok { ID := id.getD out.ID, Name := name.getD out.Name,
          Salary := salary.getD out.Salary, Age := age.getD out.Age }
  | .idNotString err _ _ _ => .error err

/-- What the handler does not control during one request: the object id the
driver generates for a document inserted without `_id`, and for each driver
call whether the backend fails (with the text of the error). -/
structure Env where
  newObjectID : ObjectID
  findErr : Option String
  cursorErr : Option String
  insertErr : Option String
  findOneErr : Option String
  updateErr : Option String
  deleteErr : Option String

/-- An environment in which no backend call fails. -/
def Env.healthy (newObjectID : ObjectID) : Env :=
  ⟨newObjectID, none, none, none, none, none, none⟩

/-! ## The driver -/

/-- Errors returned by the driver: the sentinel `mongo.ErrNoDocuments`, or any
other error, with its text. -/
inductive DriverError
  | ErrNoDocuments
  | other (text : String)
deriving DecidableEq

/-- Go `err.Error()`. -/
def DriverError.Error : DriverError → String
  | .ErrNoDocuments => "mongo: no documents in result"
  | .other text => text

/-- The driver calls a handler can issue, with their arguments. -/
inductive DbCall
  | Find
  | All
  | InsertOne (document : Employee)
  | FindOne (id : BsonID)
  | FindOneAndUpdate (id : ObjectID) (name : String) (age salary : Float64)
  | DeleteOne (id : ObjectID)
deriving DecidableEq

/-- The filter `bson.D{{Key: "_id", Value: employeeID}}`. -/
def matchesID (id : ObjectID) (d : Document) : Bool := d._id = .objectID id

/-- Driver `Collection.Find` with the empty filter: a cursor over every
document. -/
def Find (env : Env) (db : Collection) : Except DriverError (List Document) :=
  match env.findErr with
  | some text => .error (.other text)
  | none => .ok db

/-- Driver `Cursor.All`: decode every document of the cursor. -/
def All (env : Env) (cursor : List Document) : Except DriverError (List Employee) :=
  match env.cursorErr with
  | some text => .error (.other text)
  | none => .ok (cursor.map decodeDocument)

/-- Server error text for a second document with the same `_id`. -/
def duplicateKey : String := "E11000 duplicate key error"

/-- Driver `Collection.InsertOne` applied to an `Employee`.  With an empty `ID`
the encoded document has no `_id` and the driver adds the generated object id;
the insert is rejected if the key is already stored. -/
def InsertOne (env : Env) (db : Collection) (document : Employee) :
    Except DriverError BsonID × Collection :=
  match env.insertErr with
  | some text => (.error (.other text), db)
  | none =>
    let key : BsonID :=
      if document.ID = "" then .objectID env.newObjectID else .string document.ID
    if db.any (fun d => d._id = key) then (.error (.other duplicateKey), db)
    else (.ok key, db ++ [⟨key, document.Name, document.Salary, document.Age⟩])

/-- Driver `*mongo.SingleResult`: a document or an error. -/
abbrev SingleResult := Except DriverError Document

/-- Driver `Collection.FindOne` with the filter `_id = key`. -/
def FindOne (env : Env) (db : Collection) (key : BsonID) : SingleResult :=
  match env.findOneErr with
  | some text => .error (.other text)
  | none =>
    match db.find? (fun d => d._id = key) with
    | some d => .ok d
    | none => .error .ErrNoDocuments

/-- Driver `SingleResult.Decode(v)`: on success `v` is overwritten with the
decoded document; on failure `v` is left as it was and the error is
returned. -/
def SingleResult.Decode (r : SingleResult) (v : Employee) : Employee × Option DriverError :=
  match r with
  | .ok d => (decodeDocument d, none)
  | .error err => (v, some err)

/-- Driver `SingleResult.Err()`. -/
def SingleResult.Err (r : SingleResult) : Option DriverError :=
  match r with
  | .ok _ => none
  | .error err => some err

/-- The update document `$set: name, age, salary`. -/
def setFields (name : String) (age salary : Float64) (d : Document) : Document :=
  { d with name := name, age := age, salary := salary }

/-- Apply `f` to the first document satisfying `p`. -/
def updateFirst (p : Document → Bool) (f : Document → Document) : Collection → Collection
  | [] => []
  | d :: ds => if p d then f d :: ds else d :: updateFirst p f ds

/-- Driver `Collection.FindOneAndUpdate` (no upsert): the first matching
document is updated and returned; without a match the result carries
`ErrNoDocuments` and nothing is written. -/
def FindOneAndUpdate (env : Env) (db : Collection) (id : ObjectID)
    (name : String) (age salary : Float64) : SingleResult × Collection :=
  match env.updateErr with
  | some text => (.error (.other text), db)
  | none =>
    match db.find? (matchesID id) with
    | none => (.error .ErrNoDocuments, db)
    | some d => (.ok d, updateFirst (matchesID id) (setFields name age salary) db)

/-- Driver `*mongo.DeleteResult`. -/
structure DeleteResult where
  DeletedCount : Nat
deriving DecidableEq

/-- Driver `Collection.DeleteOne`: removes the first matching document. -/
def DeleteOne (env : Env) (db : Collection) (id : ObjectID) :
    Except DriverError DeleteResult × Collection :=
  match env.deleteErr with
  | some text => (.error (.other text), db)
  | none =>
    if db.any (matchesID id) then (.ok ⟨1⟩, db.eraseP (matchesID id))
    else (.ok ⟨0⟩, db)

/-! ## The Fiber response -/

/-- A value passed to `c.JSON`. -/
inductive JsonValue
  | employee (e : Employee)
  | employees (es : List Employee)
  | string (s : String)
deriving DecidableEq

/-- Response body: nothing written yet, plain text (`SendString`) or a JSON
encoded value (`JSON`). -/
inductive Body
  | empty
  | text (s : String)
  | json (v : JsonValue)
deriving DecidableEq

/-- The response part of the Fiber context. -/
structure Response where
  status : Nat
  body : Body
deriving DecidableEq

/-- A fresh context: status 200, empty body. -/
def Response.new : Response := ⟨200, .empty⟩

/-- Fiber `utils.StatusMessage`, for the status codes used here. -/
def StatusMessage (status : Nat) : String :=
  if status = 200 then "OK"
  else if status = 201 then "Created"
  else if status = 400 then "Bad Request"
  else if status = 404 then "Not Found"
  else if status = 500 then "Internal Server Error"
  else ""

/-- Fiber `c.Status(status)`. -/
def Response.Status (c : Response) (status : Nat) : Response := { c with status := status }

/-- Fiber `c.SendString(s)`. -/
def Response.SendString (c : Response) (s : String) : Response := { c with body := .text s }

/-- Fiber `c.JSON(v)`. -/
def Response.JSON (c : Response) (v : JsonValue) : Response := { c with body := .json v }

/-- Fiber `c.SendStatus(status)`: sets the status, and the status message as
body when no body has been written. -/
def Response.SendStatus (c : Response) (status : Nat) : Response :=
  let c := c.Status status
  if c.body = .empty then c.SendString (StatusMessage status) else c

/-! ## The handlers -/

/-- Result of running a handler: the response, the collection afterwards and
the driver calls issued, in order. -/
structure Outcome where
  resp : Response
  db : Collection
  calls : List DbCall
deriving DecidableEq

/-- Handler `getAllEmployees` (`main.go`, lines 71-84). -/
def getAllEmployees (env : Env) (_req : Request) (db : Collection) : Outcome :=
  let c := Response.new
  match Find env db with
  | .error err => ⟨(c.Status 500).SendString err.Error, db, [.Find]⟩
  | .ok cursor =>
    match All env cursor with
    | .error err => ⟨(c.Status 500).SendString err.Error, db, [.Find, .All]⟩
    | .ok employees => ⟨c.JSON (.employees employees), db, [.Find, .All]⟩

/-- Handler `getEmployee`, the create handler (`main.go`, lines 87-112).  The
value returned by `createRecord.Decode` is dropped, as in the source. -/
def getEmployee (env : Env) (req : Request) (db : Collection) : Outcome :=
  let c := Response.new
  match BodyParser req.body Employee.zero with
  | .error err => ⟨(c.Status 400).SendString err, db, []⟩
  | .ok employee =>
    let employee := { employee with ID := "" }
    match InsertOne env db employee with
    | (.error err, db) => ⟨(c.Status 500).SendString err.Error, db, [.InsertOne employee]⟩
    | (.ok insertedID, db) =>
      let createRecord := FindOne env db insertedID
      let createdEmployee := (createRecord.Decode Employee.zero).1
      ⟨(c.Status 201).JSON (.employee createdEmployee), db,
        [.InsertOne employee, .FindOne insertedID]⟩

/-- Handler `updateEmployee` (`main.go`, lines 115-154). -/
def updateEmployee (env : Env) (req : Request) (db : Collection) : Outcome :=
  let c := Response.new
  let idParams := req.Params "id"
  match ObjectIDFromHex idParams with
  | .error _ => ⟨c.SendStatus 400, db, []⟩
  | .ok employeeID =>
    match BodyParser req.body Employee.zero with
    | .error err => ⟨(c.Status 400).SendString err, db, []⟩
    | .ok employee =>
      let call := DbCall.FindOneAndUpdate employeeID employee.Name employee.Age employee.Salary
      match FindOneAndUpdate env db employeeID employee.Name employee.Age employee.Salary with
      | (result, db) =>
        match result.Err with
        | some err =>
          if err = .ErrNoDocuments then ⟨(c.Status 400).SendString err.Error, db, [call]⟩
          else ⟨c.SendStatus 500, db, [call]⟩
        | none =>
          let employee := { employee with ID := idParams }
          ⟨(c.Status 200).JSON (.employee employee), db, [call]⟩

/-- Handler `deleteEmployee` (`main.go`, lines 156-175). -/
def deleteEmployee (env : Env) (req : Request) (db : Collection) : Outcome :=
  let c := Response.new
  match ObjectIDFromHex (req.Params "id") with
  | .error _ => ⟨c.SendStatus 400, db, []⟩
  | .ok employeeID =>
    match DeleteOne env db employeeID with
    | (.error _, db) => ⟨c.SendStatus 500, db, [.DeleteOne employeeID]⟩
    | (.ok result, db) =>
      if result.DeletedCount < 1 then ⟨c.SendStatus 404, db, [.DeleteOne employeeID]⟩
      else ⟨(c.Status 200).JSON (.string "record deleted"), db, [.DeleteOne employeeID]⟩

/-- The document stored by a successful `InsertOne` of the create handler for
the decoded body `e`: keyed by the generated object id. -/
def createdDocument (env : Env) (e : Employee) : Document :=
  ⟨.objectID env.newObjectID, e.Name, e.Salary, e.Age⟩

/-! ## Sample data -/

/-- The object id whose twelve bytes are all `0xaa`. -/
def oidA : ObjectID := ⟨List.replicate 12 170, by decide⟩

/-- The object id whose twelve bytes are all `0xbb`. -/
def oidB : ObjectID := ⟨List.replicate 12 187, by decide⟩

/-- The object id whose twelve bytes are all `0xcc`. -/
def oidC : ObjectID := ⟨List.replicate 12 204, by decide⟩

/-- A stored record keyed by `oidA`. -/
def ann : Document := ⟨.objectID oidA, "Ann", 50000, 30⟩

/-- A stored record keyed by `oidB`. -/
def bob : Document := ⟨.objectID oidB, "Bob", 42000, 45⟩

/-- An environment in which the re-read (`FindOne`) of the create handler
fails, every other call succeeding. -/
def rereadFails : Env := { Env.healthy oidA with findOneErr := some "connection reset" }

/-- An environment in which every backend call fails. -/
def backendDown : Env :=
  { newObjectID := oidA, findErr := some "connection reset", cursorErr := some "connection reset",
    insertErr := some "connection reset", findOneErr := some "connection reset",
    updateErr := some "connection reset", deleteErr := some "connection reset" }

/-- The create body of the specification's example. -/
def annBody : RequestBody := .object none (some "Ann") (some 50000) (some 30)

/-- The update body of the specification's example. -/
def beaBody : RequestBody := .object none (some "Bea") (some 60000) (some 31)

/-! ## Hex encoding -/

theorem fromHexChar_hexDigit (n : Nat) (h : n < 16) : fromHexChar (hexDigit n) = some n := by
  interval_cases n <;> rfl

theorem hexDecode_hexEncode (bs : List Byte) : hexDecode (hexEncode bs) = some bs := by
  induction bs with
  | nil => rfl
  | cons v vs ih =>
    have h1 : v.val / 16 < 16 := by omega
    have h2 : v.val % 16 < 16 := by omega
    have h3 : (Fin.ofNat (16 * (v.val / 16) + v.val % 16) : Byte) = v := by
      apply Fin.ext
      show (16 * (v.val / 16) + v.val % 16) % 256 = v.val
      omega
    simp only [hexEncode, hexDecode, fromHexChar_hexDigit _ h1, fromHexChar_hexDigit _ h2, ih, h3]

/-- Parsing the hex form of an object id gives the object id back. -/
theorem ObjectIDFromHex_Hex (id : ObjectID) : ObjectIDFromHex id.Hex = .ok id := by
  obtain ⟨bs, hlen⟩ := id
  simp only [ObjectIDFromHex, ObjectID.Hex, hexDecode_hexEncode]
  rw [dif_pos hlen]

/-! ## Lists of documents -/

theorem find_none_of_absent (p : Document → Bool) (db : Collection)
    (h : ∀ x ∈ db, p x = false) : db.find? p = none := by
  simpa using h

theorem any_false_of_absent (p : Document → Bool) (db : Collection)
    (h : ∀ x ∈ db, p x = false) : db.any p = false := by
  simpa using h

theorem find_first (p : Document → Bool) (pre post : Collection) (d : Document)
    (hpre : ∀ x ∈ pre, p x = false) (hd : p d = true) :
    (pre ++ d :: post).find? p = some d := by
  induction pre with
  | nil => simp [hd]
  | cons x xs ih =>
    have hx : p x = false := hpre x (by simp)
    simp only [List.cons_append, List.find?_cons, hx]
    exact ih (fun y hy => hpre y (by simp [hy]))

theorem any_first (p : Document → Bool) (pre post : Collection) (d : Document)
    (hd : p d = true) : (pre ++ d :: post).any p = true := by
  simp only [List.any_eq_true]
  exact ⟨d, by simp, hd⟩

theorem updateFirst_first (p : Document → Bool) (f : Document → Document)
    (pre post : Collection) (d : Document)
    (hpre : ∀ x ∈ pre, p x = false) (hd : p d = true) :
    updateFirst p f (pre ++ d :: post) = pre ++ f d :: post := by
  induction pre with
  | nil => simp [updateFirst, hd]
  | cons x xs ih =>
    have hx : p x = false := hpre x (by simp)
    simp only [List.cons_append, updateFirst, hx]
    simp only [Bool.false_eq_true, if_false, List.cons.injEq, true_and]
    exact ih (fun y hy => hpre y (by simp [hy]))

theorem eraseP_first (p : Document → Bool) (pre post : Collection) (d : Document)
    (hpre : ∀ x ∈ pre, p x = false) (hd : p d = true) :
    (pre ++ d :: post).eraseP p = pre ++ post := by
  induction pre with
  | nil => simp [List.eraseP_cons, hd]
  | cons x xs ih =>
    have hx : p x = false := hpre x (by simp)
    have ih' := ih (fun y hy => hpre y (by simp [hy]))
    simp [List.eraseP_cons, hx, ih']

/-- Every collection either has no document satisfying `p`, or splits at the
first one. -/
theorem first_match_split (p : Document → Bool) (db : Collection) :
    (∀ x ∈ db, p x = false) ∨
    ∃ pre d post, db = pre ++ d :: post ∧ p d = true ∧ ∀ x ∈ pre, p x = false := by
  induction db with
  | nil => left; simp
  | cons x xs ih =>
    by_cases hx : p x = true
    · right; exact ⟨[], x, xs, rfl, hx, by simp⟩
    · have hx' : p x = false := by simpa using hx
      rcases ih with h | ⟨pre, d, post, hsplit, hd, hpre⟩
      · left
        intro y hy
        rcases List.mem_cons.mp hy with rfl | hy
        · exact hx'
        · exact h y hy
      · right
        refine ⟨x :: pre, d, post, by simp [hsplit], hd, ?_⟩
        intro y hy
        rcases List.mem_cons.mp hy with rfl | hy
        · exact hx'
        · exact hpre y hy

/-- With unique keys, a stored document is the only one with its key. -/
theorem split_at_id {db : Collection} {d : Document} {i : ObjectID}
    (huniq : UniqueIds db) (hmem : d ∈ db) (hd : d._id = .objectID i) :
    ∃ pre post, db = pre ++ d :: post ∧ ∀ x ∈ pre ++ post, matchesID i x = false := by
  obtain ⟨pre, post, hsplit⟩ := List.mem_iff_append.mp hmem
  refine ⟨pre, post, hsplit, ?_⟩
  intro x hx
  unfold UniqueIds at huniq
  rw [hsplit, List.map_append, List.map_cons] at huniq
  have h2 := (List.nodup_cons.mp (List.nodup_middle.mp huniq)).1
  have hne : x._id ≠ d._id := by
    intro heq
    apply h2
    rw [← heq, ← List.map_append]
    exact List.mem_map_of_mem _ hx
  simp only [matchesID, decide_eq_false_iff_not]
  rw [← hd]
  exact hne

theorem matchesID_of_id {d : Document} {i : ObjectID} (hd : d._id = .objectID i) :
    matchesID i d = true := by
  simp [matchesID, hd]

/-! ## The create handler, by cases -/

/-- The create handler on a decodable body: the record handed to `InsertOne`
has an empty `ID`; then either the insert fails (500 with the error text,
collection unchanged) or the document keyed by the generated object id is
appended and the answer is 201, carrying the re-read record, or the zero
`Employee` when the re-read fails. -/
theorem getEmployee_cases (env : Env) (req : Request) (db : Collection) (e : Employee)
    (hbody : BodyParser req.body Employee.zero = .ok e) :
    (getEmployee env req db).calls.head? = some (.InsertOne ⟨"", e.Name, e.Salary, e.Age⟩) ∧
    ((∃ err, (InsertOne env db ⟨"", e.Name, e.Salary, e.Age⟩).1 = .error err ∧
        (getEmployee env req db).resp = ⟨500, .text err.Error⟩ ∧
        (getEmployee env req db).db = db) ∨
     ((InsertOne env db ⟨"", e.Name, e.Salary, e.Age⟩).1 = .ok (.objectID env.newObjectID) ∧
        (getEmployee env req db).db = db ++ [createdDocument env e] ∧
        (getEmployee env req db).resp.status = 201 ∧
        (env.findOneErr = none → (getEmployee env req db).resp
          = ⟨201, .json (.employee ⟨env.newObjectID.Hex, e.Name, e.Salary, e.Age⟩)⟩) ∧
        (env.findOneErr ≠ none → (getEmployee env req db).resp
          = ⟨201, .json (.employee Employee.zero)⟩) ∧
        (∀ x ∈ db, x._id ≠ .objectID env.newObjectID))) := by
  cases hins : env.insertErr with
  | some text =>
    have hI : InsertOne env db ⟨"", e.Name, e.Salary, e.Age⟩ = (.error (.other text), db) := by
      simp only [InsertOne, hins]
    have hout : getEmployee env req db
        = ⟨⟨500, .text text⟩, db, [.InsertOne ⟨"", e.Name, e.Salary, e.Age⟩]⟩ := by
      simp only [getEmployee, hbody, hI]
      rfl
    rw [hout, hI]
    exact ⟨rfl, Or.inl ⟨_, rfl, rfl, rfl⟩⟩
  | none =>
    cases hany : db.any (fun d => decide (d._id = .objectID env.newObjectID)) with
    | true =>
      have hI : InsertOne env db ⟨"", e.Name, e.Salary, e.Age⟩
          = (.error (.other duplicateKey), db) := by
        simp only [InsertOne, hins, if_true, hany]
      have hout : getEmployee env req db
          = ⟨⟨500, .text duplicateKey⟩, db, [.InsertOne ⟨"", e.Name, e.Salary, e.Age⟩]⟩ := by
        simp only [getEmployee, hbody, hI]
        rfl
      rw [hout, hI]
      exact ⟨rfl, Or.inl ⟨_, rfl, rfl, rfl⟩⟩
    | false =>
      have hI : InsertOne env db ⟨"", e.Name, e.Salary, e.Age⟩
          = (.ok (.objectID env.newObjectID), db ++ [createdDocument env e]) := by
        simp only [InsertOne, hins, if_true, hany, createdDocument, Bool.false_eq_true, if_false]
      have hpre : ∀ x ∈ db, decide (x._id = .objectID env.newObjectID) = false := by
        simpa using hany
      have hfound := find_first (fun d => decide (d._id = .objectID env.newObjectID)) db []
        (createdDocument env e) hpre (by simp [createdDocument])
      have hout : getEmployee env req db
          = ⟨⟨201, .json (.employee
                ((FindOne env (db ++ [createdDocument env e])
                  (.objectID env.newObjectID)).Decode Employee.zero).1)⟩,
              db ++ [createdDocument env e],
              [.InsertOne ⟨"", e.Name, e.Salary, e.Age⟩,
                .FindOne (.objectID env.newObjectID)]⟩ := by
        simp only [getEmployee, hbody, hI]
        rfl
      rw [hout, hI]
      refine ⟨rfl, Or.inr ⟨rfl, rfl, rfl, ?_, ?_, ?_⟩⟩
      · intro hread
        simp only [FindOne, hread, hfound, SingleResult.Decode, decodeDocument]
        rfl
      · intro hread
        cases hr : env.findOneErr with
        | none => exact absurd hr hread
        | some text => simp only [FindOne, hr, SingleResult.Decode]
      · intro x hx
        simpa using hpre x hx

/-! ## Effect of each handler on the collection -/

theorem getAllEmployees_db (env : Env) (req : Request) (db : Collection) :
    (getAllEmployees env req db).db = db := by
  cases hfind : Find env db with
  | error err => simp only [getAllEmployees, hfind]
  | ok cursor =>
    cases hcur : All env cursor with
    | error err => simp only [getAllEmployees, hfind, hcur]
    | ok es => simp only [getAllEmployees, hfind, hcur]

theorem getEmployee_db (env : Env) (req : Request) (db : Collection) :
    (getEmployee env req db).db = db ∨
    ∃ d, (∀ x ∈ db, x._id ≠ d._id) ∧ (getEmployee env req db).db = db ++ [d] := by
  cases hbody : BodyParser req.body Employee.zero with
  | error err =>
    left
    simp only [getEmployee, hbody]
  | ok e =>
    obtain ⟨_, hcases⟩ := getEmployee_cases env req db e hbody
    rcases hcases with ⟨_, _, _, hdb⟩ | ⟨_, hdb, _, _, _, hfresh⟩
    · exact Or.inl hdb
    · exact Or.inr ⟨_, hfresh, hdb⟩

theorem updateEmployee_db (env : Env) (req : Request) (db : Collection) :
    (updateEmployee env req db).db = db ∨
    ∃ i e pre d post, ObjectIDFromHex req.id = .ok i ∧
      BodyParser req.body Employee.zero = .ok e ∧
      db = pre ++ d :: post ∧ d._id = .objectID i ∧
      (updateEmployee env req db).db = pre ++ ⟨d._id, e.Name, e.Salary, e.Age⟩ :: post := by
  have hparam : req.Params "id" = req.id := by simp [Request.Params]
  cases hid : ObjectIDFromHex req.id with
  | error msg =>
    left
    simp only [updateEmployee, hparam, hid]
  | ok i =>
    cases hbody : BodyParser req.body Employee.zero with
    | error err =>
      left
      simp only [updateEmployee, hparam, hid, hbody]
    | ok e =>
      cases herr : env.updateErr with
      | some text =>
        left
        simp only [updateEmployee, hparam, hid, hbody, FindOneAndUpdate, herr, SingleResult.Err]
        rfl
      | none =>
        rcases first_match_split (matchesID i) db with hnone | ⟨pre, d, post, hsplit, hd, hpre⟩
        · left
          simp only [updateEmployee, hparam, hid, hbody, FindOneAndUpdate, herr,
            find_none_of_absent _ _ hnone, SingleResult.Err, if_true]
        · right
          have hkey : d._id = .objectID i := by simpa [matchesID] using hd
          refine ⟨i, e, pre, d, post, rfl, rfl, hsplit, hkey, ?_⟩
          simp only [updateEmployee, hparam, hid, hbody, FindOneAndUpdate, herr, hsplit,
            find_first _ pre post d hpre hd, updateFirst_first _ _ pre post d hpre hd,
            SingleResult.Err, setFields]

theorem deleteEmployee_db (env : Env) (req : Request) (db : Collection) :
    (deleteEmployee env req db).db = db ∨
    ∃ i pre d post, ObjectIDFromHex req.id = .ok i ∧ d._id = .objectID i ∧
      db = pre ++ d :: post ∧ (deleteEmployee env req db).db = pre ++ post := by
  have hparam : req.Params "id" = req.id := by simp [Request.Params]
  cases hid : ObjectIDFromHex req.id with
  | error msg =>
    left
    simp only [deleteEmployee, hparam, hid]
  | ok i =>
    cases herr : env.deleteErr with
    | some text =>
      left
      simp only [deleteEmployee, hparam, hid, DeleteOne, herr]
    | none =>
      rcases first_match_split (matchesID i) db with hnone | ⟨pre, d, post, hsplit, hd, hpre⟩
      · left
        simp only [deleteEmployee, hparam, hid, DeleteOne, herr,
          any_false_of_absent _ _ hnone]
        rfl
      · right
        have hkey : d._id = .objectID i := by simpa [matchesID] using hd
        refine ⟨i, pre, d, post, rfl, hkey, hsplit, ?_⟩
        simp only [deleteEmployee, hparam, hid, DeleteOne, herr, hsplit,
          any_first _ pre post d hd, eraseP_first _ pre post d hpre hd, if_true]
        rfl

/-- Key uniqueness is kept by every handler, so it holds in every collection
the service reaches from the empty one. -/
theorem unique_ids_preserved (env : Env) (req : Request) (db : Collection)
    (huniq : UniqueIds db) :
    UniqueIds (getAllEmployees env req db).db ∧ UniqueIds (getEmployee env req db).db ∧
    UniqueIds (updateEmployee env req db).db ∧ UniqueIds (deleteEmployee env req db).db := by
  refine ⟨?_, ?_, ?_, ?_⟩
  · rw [getAllEmployees_db]; exact huniq
  · rcases getEmployee_db env req db with h | ⟨d, hfresh, h⟩
    · rw [h]; exact huniq
    · rw [h]
      unfold UniqueIds at huniq ⊢
      rw [List.map_append, List.map_singleton]
      refine List.Nodup.append huniq (List.nodup_singleton _) ?_
      intro k hk hk2
      obtain ⟨x, hx, rfl⟩ := List.mem_map.mp hk
      exact hfresh x hx (List.mem_singleton.mp hk2)
  · rcases updateEmployee_db env req db with h | ⟨i, e, pre, d, post, _, _, hsplit, _, h⟩
    · rw [h]; exact huniq
    · rw [h]
      unfold UniqueIds at huniq ⊢
      rw [hsplit] at huniq
      simpa using huniq
  · rcases deleteEmployee_db env req db with h | ⟨i, pre, d, post, _, _, hsplit, h⟩
    · rw [h]; exact huniq
    · rw [h]
      unfold UniqueIds at huniq ⊢
      rw [hsplit, List.map_append, List.map_cons] at huniq
      rw [List.map_append]
      exact (List.nodup_cons.mp (List.nodup_middle.mp huniq)).2

/-! ## Malformed and absent identifiers -/

/-- C1: for every collection, every request body and every path id that
`ObjectIDFromHex` rejects, `updateEmployee` and `deleteEmployee` both answer
400 (with the status text as body), issue no driver call and leave the
collection as it was, whatever the environment. -/
theorem invalid_id_is_rejected_without_db_access (env : Env) (req : Request) (db : Collection)
    (hbad : ∀ id, ObjectIDFromHex req.id ≠ .ok id) :
    (updateEmployee env req db).resp = ⟨400, .text "Bad Request"⟩ ∧
    (updateEmployee env req db).calls = [] ∧
    (updateEmployee env req db).db = db ∧
    (deleteEmployee env req db).resp = ⟨400, .text "Bad Request"⟩ ∧
    (deleteEmployee env req db).calls = [] ∧
    (deleteEmployee env req db).db = db := by
  have hparam : req.Params "id" = req.id := by simp [Request.Params]
  cases hparse : ObjectIDFromHex req.id with
  | ok id => exact absurd hparse (hbad id)
  | error msg =>
    simp only [updateEmployee, deleteEmployee, hparam, hparse]
    refine ⟨?_, trivial, trivial, ?_, trivial, trivial⟩ <;> rfl

/-- Instance of the C1 theorem on sample data. -/
theorem invalid_id_is_rejected_without_db_access_witness :
    (∀ id, ObjectIDFromHex "not-an-object-id" ≠ .ok id) ∧
    (updateEmployee (Env.healthy oidB) ⟨"not-an-object-id", beaBody⟩ [ann]).resp
      = ⟨400, .text "Bad Request"⟩ ∧
    (updateEmployee (Env.healthy oidB) ⟨"not-an-object-id", beaBody⟩ [ann]).db = [ann] ∧
    (deleteEmployee (Env.healthy oidB) ⟨"not-an-object-id", beaBody⟩ [ann]).resp
      = ⟨400, .text "Bad Request"⟩ ∧
    (deleteEmployee (Env.healthy oidB) ⟨"not-an-object-id", beaBody⟩ [ann]).db = [ann] :=
  have hbad : ∀ id, ObjectIDFromHex "not-an-object-id" ≠ .ok id := by
    intro id h
    have hparse : ObjectIDFromHex "not-an-object-id" = .error "encoding/hex: invalid byte" := rfl
    rw [hparse] at h
    cases h
  have h := invalid_id_is_rejected_without_db_access (Env.healthy oidB)
    ⟨"not-an-object-id", beaBody⟩ [ann] hbad
  ⟨hbad, h.1, h.2.2.1, h.2.2.2.1, h.2.2.2.2.2⟩

/-- C2: for every collection, every decodable body and every well-formed path
id that matches no stored record, `updateEmployee` (the backend not failing)
answers 400 with the text of `mongo.ErrNoDocuments` as body and leaves the
collection as it was. -/
theorem update_of_absent_id (env : Env) (req : Request) (db : Collection) (id : ObjectID)
    (employee : Employee)
    (hid : ObjectIDFromHex req.id = .ok id)
    (hbody : BodyParser req.body Employee.zero = .ok employee)
    (habsent : ∀ d ∈ db, d._id ≠ .objectID id)
    (hbackend : env.updateErr = none) :
    (updateEmployee env req db).resp = ⟨400, .text DriverError.ErrNoDocuments.Error⟩ ∧
    DriverError.ErrNoDocuments.Error = "mongo: no documents in result" ∧
    (updateEmployee env req db).db = db := by
  have hparam : req.Params "id" = req.id := by simp [Request.Params]
  have hfind : db.find? (matchesID id) = none :=
    find_none_of_absent _ _ (fun d hd => by simpa [matchesID] using habsent d hd)
  simp only [updateEmployee, hparam, hid, hbody, FindOneAndUpdate, hbackend, hfind,
    SingleResult.Err, if_true]
  refine ⟨?_, ?_, ?_⟩ <;> trivial

/-- Instance of the C2 theorem on sample data. -/
theorem update_of_absent_id_witness :
    (updateEmployee (Env.healthy oidA) ⟨oidB.Hex, beaBody⟩ [ann]).resp
      = ⟨400, .text "mongo: no documents in result"⟩ ∧
    (updateEmployee (Env.healthy oidA) ⟨oidB.Hex, beaBody⟩ [ann]).db = [ann] :=
  have h := update_of_absent_id (Env.healthy oidA) ⟨oidB.Hex, beaBody⟩ [ann] oidB
    ⟨"", "Bea", 60000, 31⟩ (ObjectIDFromHex_Hex oidB) rfl (by decide) rfl
  ⟨h.1, h.2.2⟩

/-! ## Update and delete of a stored record -/

/-- C3, as stated, fails: the path id `AAAAAAAAAAAAAAAAAAAAAAAA` designates the
stored record `ann` (it parses to the key of `ann`), the list operation
reports that record under the id `aaaaaaaaaaaaaaaaaaaaaaaa`, and the update
answers 200 with the id `AAAAAAAAAAAAAAAAAAAAAAAA`, the path id as
written. -/
theorem update_echoes_path_id_not_listed_id :
    ObjectIDFromHex "AAAAAAAAAAAAAAAAAAAAAAAA" = .ok oidA ∧
    (getAllEmployees (Env.healthy oidB) ⟨"", .malformed ""⟩ [ann]).resp
      = ⟨200, .json (.employees [⟨"aaaaaaaaaaaaaaaaaaaaaaaa", "Ann", 50000, 30⟩])⟩ ∧
    (updateEmployee (Env.healthy oidB) ⟨"AAAAAAAAAAAAAAAAAAAAAAAA", beaBody⟩ [ann]).resp
      = ⟨200, .json (.employee ⟨"AAAAAAAAAAAAAAAAAAAAAAAA", "Bea", 60000, 31⟩)⟩ ∧
    (updateEmployee (Env.healthy oidB) ⟨"AAAAAAAAAAAAAAAAAAAAAAAA", beaBody⟩ [ann]).resp
      ≠ ⟨200, .json (.employee ⟨"aaaaaaaaaaaaaaaaaaaaaaaa", "Bea", 60000, 31⟩)⟩ := by
  have hresp : (updateEmployee (Env.healthy oidB) ⟨"AAAAAAAAAAAAAAAAAAAAAAAA", beaBody⟩ [ann]).resp
      = ⟨200, .json (.employee ⟨"AAAAAAAAAAAAAAAAAAAAAAAA", "Bea", 60000, 31⟩)⟩ := rfl
  refine ⟨rfl, rfl, hresp, ?_⟩
  rw [hresp]
  intro h
  injection h with _ hbody
  injection hbody with hjson
  injection hjson with hemp
  injection hemp with hid
  exact absurd hid (by decide)

/-- C3, amended: for every collection with unique keys holding a record `d`
with key `i`, every body decoding to name `n`, salary `s`, age `a`, and every
path id that parses to `i`, `updateEmployee` (the backend not failing) answers
200 with body `n`, `s`, `a` and the path id as written, which is the id the
list operation reports whenever the path id is the lower-case hex form of
`i`; the collection afterwards is the previous one with `d` replaced in place
by the record keyed `i` carrying `n`, `s`, `a`, and a following
`getAllEmployees` returns exactly that collection, decoded: the employee with
id `i.Hex` and `n`, `s`, `a` at the position of `d`, no other record keyed
`i`. -/
theorem update_of_stored_record (env env2 : Env) (req req2 : Request) (db : Collection)
    (i : ObjectID) (d : Document) (cid n : String) (s a : Float64)
    (hid : ObjectIDFromHex req.id = .ok i)
    (hbody : BodyParser req.body Employee.zero = .ok ⟨cid, n, s, a⟩)
    (hmem : d ∈ db) (hd : d._id = .objectID i) (huniq : UniqueIds db)
    (hbackend : env.updateErr = none)
    (hfind : env2.findErr = none) (hcursor : env2.cursorErr = none) :
    (updateEmployee env req db).resp = ⟨200, .json (.employee ⟨req.id, n, s, a⟩)⟩ ∧
    (req.id = i.Hex →
      (updateEmployee env req db).resp = ⟨200, .json (.employee ⟨i.Hex, n, s, a⟩)⟩) ∧
    ∃ pre post, db = pre ++ d :: post ∧
      (∀ x ∈ pre ++ post, x._id ≠ .objectID i) ∧
      (updateEmployee env req db).db = pre ++ ⟨.objectID i, n, s, a⟩ :: post ∧
      (getAllEmployees env2 req2 (updateEmployee env req db).db).resp
        = ⟨200, .json (.employees
            (pre.map decodeDocument ++ ⟨i.Hex, n, s, a⟩ :: post.map decodeDocument))⟩ := by
  have hparam : req.Params "id" = req.id := by simp [Request.Params]
  obtain ⟨pre, post, hsplit, hrest⟩ := split_at_id huniq hmem hd
  have hpre : ∀ x ∈ pre, matchesID i x = false := fun x hx => hrest x (by simp [hx])
  have hmatch := matchesID_of_id hd
  have hout : updateEmployee env req db
      = ⟨⟨200, .json (.employee ⟨req.id, n, s, a⟩)⟩, pre ++ ⟨.objectID i, n, s, a⟩ :: post,
          [.FindOneAndUpdate i n a s]⟩ := by
    simp only [updateEmployee, hparam, hid, hbody, FindOneAndUpdate, hbackend, hsplit,
      find_first _ pre post d hpre hmatch, updateFirst_first _ _ pre post d hpre hmatch,
      SingleResult.Err, setFields, hd]
    rfl
  refine ⟨by rw [hout], fun h => by rw [hout, h], pre, post, hsplit, ?_, by rw [hout], ?_⟩
  · intro x hx
    have := hrest x hx
    simpa [matchesID] using this
  · rw [hout]
    simp only [getAllEmployees, Find, All, hfind, hcursor, List.map_append, List.map_cons]
    rfl

/-- Instance of the C3 theorem on sample data. -/
theorem update_of_stored_record_witness :
    (updateEmployee (Env.healthy oidB) ⟨oidA.Hex, beaBody⟩ [ann, bob]).resp
      = ⟨200, .json (.employee ⟨oidA.Hex, "Bea", 60000, 31⟩)⟩ ∧
    ∃ pre post, [ann, bob] = pre ++ ann :: post ∧
      (updateEmployee (Env.healthy oidB) ⟨oidA.Hex, beaBody⟩ [ann, bob]).db
        = pre ++ ⟨.objectID oidA, "Bea", 60000, 31⟩ :: post ∧
      (getAllEmployees (Env.healthy oidB) ⟨"", .malformed ""⟩
          (updateEmployee (Env.healthy oidB) ⟨oidA.Hex, beaBody⟩ [ann, bob]).db).resp
        = ⟨200, .json (.employees
            (pre.map decodeDocument ++ ⟨oidA.Hex, "Bea", 60000, 31⟩ :: post.map decodeDocument))⟩ :=
  have h := update_of_stored_record (Env.healthy oidB) (Env.healthy oidB) ⟨oidA.Hex, beaBody⟩
    ⟨"", .malformed ""⟩ [ann, bob] oidA ann "" "Bea" 60000 31
    (ObjectIDFromHex_Hex oidA) rfl (by simp) rfl (by decide) rfl rfl rfl
  ⟨h.1, h.2.2.imp (fun _ hp => hp.imp (fun _ hq => ⟨hq.1, hq.2.2.1, hq.2.2.2⟩))⟩

/-- C4: for every collection with unique keys holding a record `d` with key
`i`, `deleteEmployee` on a path id that parses to `i` (the backend not
failing) answers 200 with the confirmation string, and the collection
afterwards is the previous one with `d` alone taken out, every other record
in place and unchanged; a second `deleteEmployee` on the same path id, applied
to that collection, answers 404 and leaves it as it is. -/
theorem delete_of_stored_record (env env2 : Env) (req : Request) (db : Collection)
    (i : ObjectID) (d : Document)
    (hid : ObjectIDFromHex req.id = .ok i)
    (hmem : d ∈ db) (hd : d._id = .objectID i) (huniq : UniqueIds db)
    (hbackend : env.deleteErr = none) (hbackend2 : env2.deleteErr = none) :
    (deleteEmployee env req db).resp = ⟨200, .json (.string "record deleted")⟩ ∧
    (∃ pre post, db = pre ++ d :: post ∧ (deleteEmployee env req db).db = pre ++ post) ∧
    (deleteEmployee env req db).db.length + 1 = db.length ∧
    (∀ x ∈ (deleteEmployee env req db).db, x._id ≠ .objectID i) ∧
    (deleteEmployee env2 req (deleteEmployee env req db).db).resp = ⟨404, .text "Not Found"⟩ ∧
    (deleteEmployee env2 req (deleteEmployee env req db).db).db = (deleteEmployee env req db).db := by
  have hparam : req.Params "id" = req.id := by simp [Request.Params]
  obtain ⟨pre, post, hsplit, hrest⟩ := split_at_id huniq hmem hd
  have hpre : ∀ x ∈ pre, matchesID i x = false := fun x hx => hrest x (by simp [hx])
  have hmatch := matchesID_of_id hd
  have hout : deleteEmployee env req db
      = ⟨⟨200, .json (.string "record deleted")⟩, pre ++ post, [.DeleteOne i]⟩ := by
    simp only [deleteEmployee, hparam, hid, DeleteOne, hbackend, hsplit,
      any_first _ pre post d hmatch, eraseP_first _ pre post d hpre hmatch, if_true]
    rfl
  have hout2 : deleteEmployee env2 req (pre ++ post)
      = ⟨⟨404, .text "Not Found"⟩, pre ++ post, [.DeleteOne i]⟩ := by
    simp only [deleteEmployee, hparam, hid, DeleteOne, hbackend2,
      any_false_of_absent _ (pre ++ post) hrest]
    rfl
  rw [hout]
  refine ⟨rfl, ⟨pre, post, hsplit, rfl⟩, by simp [hsplit]; omega, ?_, by rw [hout2], by rw [hout2]⟩
  intro x hx
  have := hrest x hx
  simpa [matchesID] using this

/-- Instance of the C4 theorem on sample data. -/
theorem delete_of_stored_record_witness :
    (deleteEmployee (Env.healthy oidB) ⟨oidA.Hex, .malformed ""⟩ [bob, ann]).resp
      = ⟨200, .json (.string "record deleted")⟩ ∧
    (deleteEmployee (Env.healthy oidB) ⟨oidA.Hex, .malformed ""⟩ [bob, ann]).db.length + 1 = 2 ∧
    (deleteEmployee (Env.healthy oidB) ⟨oidA.Hex, .malformed ""⟩
        (deleteEmployee (Env.healthy oidB) ⟨oidA.Hex, .malformed ""⟩ [bob, ann]).db).resp
      = ⟨404, .text "Not Found"⟩ :=
  have h := delete_of_stored_record (Env.healthy oidB) (Env.healthy oidB)
    ⟨oidA.Hex, .malformed ""⟩ [bob, ann] oidA ann
    (ObjectIDFromHex_Hex oidA) (by simp) rfl (by decide) rfl rfl
  ⟨h.1, h.2.2.1, h.2.2.2.2.1⟩

/-- C9: for every collection with unique keys holding a record `d` with key
`i`, and every update body, whichever of its keys are present,
`updateEmployee` on a path id that parses to `i` (the backend not failing)
passes all three of name, age and salary to the driver, taken from the decoded
body, and the stored record becomes exactly those three values under the same
key: a key absent from the body is stored as the empty string (name) or 0
(salary, age), whatever `d` held. -/
theorem update_overwrites_all_fields (env : Env) (req : Request) (db : Collection)
    (i : ObjectID) (d : Document) (bid name : Option String) (salary age : Option Float64)
    (hid : ObjectIDFromHex req.id = .ok i)
    (hbody : req.body = .object bid name salary age)
    (hmem : d ∈ db) (hd : d._id = .objectID i) (huniq : UniqueIds db)
    (hbackend : env.updateErr = none) :
    (updateEmployee env req db).calls
      = [.FindOneAndUpdate i (name.getD "") (age.getD 0) (salary.getD 0)] ∧
    ∃ pre post, db = pre ++ d :: post ∧
      (updateEmployee env req db).db
        = pre ++ ⟨.objectID i, name.getD "", salary.getD 0, age.getD 0⟩ :: post := by
  have hparam : req.Params "id" = req.id := by simp [Request.Params]
  obtain ⟨pre, post, hsplit, hrest⟩ := split_at_id huniq hmem hd
  have hpre : ∀ x ∈ pre, matchesID i x = false := fun x hx => hrest x (by simp [hx])
  have hmatch := matchesID_of_id hd
  have hout : updateEmployee env req db
      = ⟨⟨200, .json (.employee ⟨req.id, name.getD "", salary.getD 0, age.getD 0⟩)⟩,
          pre ++ ⟨.objectID i, name.getD "", salary.getD 0, age.getD 0⟩ :: post,
          [.FindOneAndUpdate i (name.getD "") (age.getD 0) (salary.getD 0)]⟩ := by
    simp only [updateEmployee, hparam, hid, hbody, BodyParser, Employee.zero, FindOneAndUpdate,
      hbackend, hsplit, find_first _ pre post d hpre hmatch,
      updateFirst_first _ _ pre post d hpre hmatch, SingleResult.Err, setFields, hd]
    rfl
  rw [hout]
  exact ⟨rfl, pre, post, hsplit, rfl⟩

/-- Instance of the C9 theorem on sample data. -/
theorem update_overwrites_all_fields_witness :
    (updateEmployee (Env.healthy oidB) ⟨oidA.Hex, .object none (some "Bea") none none⟩
        [ann, bob]).calls = [.FindOneAndUpdate oidA "Bea" 0 0] ∧
    ∃ pre post, [ann, bob] = pre ++ ann :: post ∧
      (updateEmployee (Env.healthy oidB) ⟨oidA.Hex, .object none (some "Bea") none none⟩
        [ann, bob]).db = pre ++ ⟨.objectID oidA, "Bea", 0, 0⟩ :: post :=
  update_overwrites_all_fields (Env.healthy oidB)
    ⟨oidA.Hex, .object none (some "Bea") none none⟩ [ann, bob] oidA ann none (some "Bea")
    none none (ObjectIDFromHex_Hex oidA) rfl (by simp) rfl (by decide) rfl

/-! ## Create -/

/-- C6 (defect in the code): the body decodes, `InsertOne` succeeds and the
re-read `FindOne` fails with `connection reset`; the create handler drops the
error returned by `Decode` and answers 201 with the zero `Employee`, where
the claim requires 500. -/
theorem create_answers_201_when_reread_fails :
    (InsertOne rereadFails [] ⟨"", "Ann", 50000, 30⟩).1 = .ok (.objectID oidA) ∧
    FindOne rereadFails [⟨.objectID oidA, "Ann", 50000, 30⟩] (.objectID oidA)
      = .error (.other "connection reset") ∧
    (getEmployee rereadFails ⟨"", annBody⟩ []).resp
      = ⟨201, .json (.employee ⟨"", "", 0, 0⟩)⟩ ∧
    (getEmployee rereadFails ⟨"", annBody⟩ []).resp.status ≠ 500 ∧
    (getEmployee rereadFails ⟨"", annBody⟩ []).db = [⟨.objectID oidA, "Ann", 50000, 30⟩] := by
  refine ⟨rfl, rfl, rfl, ?_, rfl⟩
  have h : (getEmployee rereadFails ⟨"", annBody⟩ []).resp.status = 201 := rfl
  rw [h]
  decide

/-- C8 (defect in the code, the one of C6): the body `Ann, 50000, 30` decodes,
`InsertOne` succeeds and the re-read fails; the create handler answers 201
with the zero `Employee` as returned record, the collection has grown by the
stored Ann record, and `getAllEmployees` on it lists exactly that record: the
returned record is not in the list, and its name, salary, age and id are not
those created. -/
theorem created_record_not_listed_when_reread_fails :
    (getEmployee rereadFails ⟨"", annBody⟩ []).resp
      = ⟨201, .json (.employee ⟨"", "", 0, 0⟩)⟩ ∧
    (getEmployee rereadFails ⟨"", annBody⟩ []).db = [ann] ∧
    (getAllEmployees (Env.healthy oidB) ⟨"", .malformed ""⟩
        (getEmployee rereadFails ⟨"", annBody⟩ []).db).resp
      = ⟨200, .json (.employees [⟨"aaaaaaaaaaaaaaaaaaaaaaaa", "Ann", 50000, 30⟩])⟩ ∧
    (⟨"", "", 0, 0⟩ : Employee) ∉ [(⟨"aaaaaaaaaaaaaaaaaaaaaaaa", "Ann", 50000, 30⟩ : Employee)] := by
  refine ⟨rfl, rfl, rfl, ?_⟩
  simp

/-- Round trip when the re-read succeeds: for every collection and every
create body decoding to name `n`, salary `s`, age `a`, if the create handler
answers 201 with record `r` and the re-read did not fail, the collection
afterwards is the previous one with one document appended, and
`getAllEmployees` on that collection (the backend not failing) answers 200
with a list that contains `r`, where `r` has name `n`, salary `s`, age `a`
and the hex form of the generated object id as id. -/
theorem create_then_list (env env2 : Env) (req req2 : Request) (db : Collection)
    (cid n : String) (s a : Float64) (r : Employee)
    (hbody : BodyParser req.body Employee.zero = .ok ⟨cid, n, s, a⟩)
    (hresp : (getEmployee env req db).resp = ⟨201, .json (.employee r)⟩)
    (hread : env.findOneErr = none)
    (hfind : env2.findErr = none) (hcursor : env2.cursorErr = none) :
    (getEmployee env req db).db.length = db.length + 1 ∧
    (∃ d, (getEmployee env req db).db = db ++ [d]) ∧
    r = ⟨env.newObjectID.Hex, n, s, a⟩ ∧
    ∃ es, (getAllEmployees env2 req2 (getEmployee env req db).db).resp
        = ⟨200, .json (.employees es)⟩ ∧ r ∈ es := by
  obtain ⟨_, hcases⟩ := getEmployee_cases env req db _ hbody
  rcases hcases with ⟨err, _, h500, _⟩ | ⟨_, hdb, _, hok, _⟩
  · rw [h500] at hresp
    have hstatus := congrArg Response.status hresp
    simp at hstatus
  · have hr : r = ⟨env.newObjectID.Hex, n, s, a⟩ := by
      have h := hok hread
      rw [hresp] at h
      injection h with _ hb
      injection hb with hj
      injection hj
    refine ⟨by simp [hdb], ⟨_, hdb⟩, hr,
      (getEmployee env req db).db.map decodeDocument, ?_, ?_⟩
    · simp only [getAllEmployees, Find, All, hfind, hcursor]
      rfl
    · rw [hdb, hr]
      simp [createdDocument, decodeDocument]

/-- Instance of the round trip on sample data. -/
theorem create_then_list_witness :
    (getEmployee (Env.healthy oidC) ⟨"", annBody⟩ [bob, ann]).db.length = 3 ∧
    ∃ es, (getAllEmployees (Env.healthy oidA) ⟨"", .malformed ""⟩
          (getEmployee (Env.healthy oidC) ⟨"", annBody⟩ [bob, ann]).db).resp
        = ⟨200, .json (.employees es)⟩ ∧
      (⟨oidC.Hex, "Ann", 50000, 30⟩ : Employee) ∈ es :=
  have h := create_then_list (Env.healthy oidC) (Env.healthy oidA) ⟨"", annBody⟩
    ⟨"", .malformed ""⟩ [bob, ann] "" "Ann" 50000 30 ⟨oidC.Hex, "Ann", 50000, 30⟩
    rfl rfl rfl rfl rfl
  ⟨h.1, h.2.2.2⟩

/-! ## Backend failures -/

/-- C7, as stated, fails: `FindOneAndUpdate` fails with `connection reset`
(not the record-absent error) and `updateEmployee` answers 500 with the
status text `Internal Server Error` as body, not the text of the error; the
same holds for `deleteEmployee`. -/
theorem update_failure_body_is_not_error_text :
    (FindOneAndUpdate backendDown [ann] oidA "Bea" 31 60000).1
      = .error (.other "connection reset") ∧
    (updateEmployee backendDown ⟨"aaaaaaaaaaaaaaaaaaaaaaaa", beaBody⟩ [ann]).resp
      = ⟨500, .text "Internal Server Error"⟩ ∧
    (updateEmployee backendDown ⟨"aaaaaaaaaaaaaaaaaaaaaaaa", beaBody⟩ [ann]).resp
      ≠ ⟨500, .text "connection reset"⟩ ∧
    (deleteEmployee backendDown ⟨"aaaaaaaaaaaaaaaaaaaaaaaa", beaBody⟩ [ann]).resp
      ≠ ⟨500, .text "connection reset"⟩ := by
  have hu : (updateEmployee backendDown ⟨"aaaaaaaaaaaaaaaaaaaaaaaa", beaBody⟩ [ann]).resp
      = ⟨500, .text "Internal Server Error"⟩ := rfl
  have hd : (deleteEmployee backendDown ⟨"aaaaaaaaaaaaaaaaaaaaaaaa", beaBody⟩ [ann]).resp
      = ⟨500, .text "Internal Server Error"⟩ := rfl
  refine ⟨rfl, hu, ?_, ?_⟩
  · rw [hu]; decide
  · rw [hd]; decide

/-- C7, amended: every failure of `Find` or `Cursor.All` in `getAllEmployees`
and of `InsertOne` in the create handler is answered with status 500 and the
text of the error as body; every failure of `FindOneAndUpdate` other than
`ErrNoDocuments` in `updateEmployee` and every failure of `DeleteOne` in
`deleteEmployee` is answered with status 500 and the status text
`Internal Server Error` as body. -/
theorem backend_failure_responses (env : Env) (req : Request) (db : Collection)
    (err : DriverError) :
    (Find env db = .error err →
      (getAllEmployees env req db).resp = ⟨500, .text err.Error⟩) ∧
    (∀ cursor, Find env db = .ok cursor → All env cursor = .error err →
      (getAllEmployees env req db).resp = ⟨500, .text err.Error⟩) ∧
    (∀ e, BodyParser req.body Employee.zero = .ok e →
      (InsertOne env db { e with ID := "" }).1 = .error err →
      (getEmployee env req db).resp = ⟨500, .text err.Error⟩) ∧
    (∀ i e, ObjectIDFromHex req.id = .ok i → BodyParser req.body Employee.zero = .ok e →
      (FindOneAndUpdate env db i e.Name e.Age e.Salary).1 = .error err →
      err ≠ .ErrNoDocuments →
      (updateEmployee env req db).resp = ⟨500, .text "Internal Server Error"⟩) ∧
    (∀ i, ObjectIDFromHex req.id = .ok i → (DeleteOne env db i).1 = .error err →
      (deleteEmployee env req db).resp = ⟨500, .text "Internal Server Error"⟩) := by
  have hparam : req.Params "id" = req.id := by simp [Request.Params]
  refine ⟨?_, ?_, ?_, ?_, ?_⟩
  · intro hfind
    simp only [getAllEmployees, hfind]
    rfl
  · intro cursor hfind hall
    simp only [getAllEmployees, hfind, hall]
    rfl
  · intro e hbody hins
    obtain ⟨_, hcases⟩ := getEmployee_cases env req db e hbody
    rcases hcases with ⟨err2, hins2, hresp, _⟩ | ⟨hins2, _⟩
    · rw [hins] at hins2
      injection hins2 with heq
      rw [hresp, heq]
    · rw [hins] at hins2
      cases hins2
  · intro i e hid hbody hupd hne
    cases hres : FindOneAndUpdate env db i e.Name e.Age e.Salary with
    | mk result db2 =>
      rw [hres] at hupd
      simp only at hupd
      simp only [updateEmployee, hparam, hid, hbody, hres, hupd, SingleResult.Err, hne, if_false]
      rfl
  · intro i hid hdel
    cases hres : DeleteOne env db i with
    | mk result db2 =>
      rw [hres] at hdel
      simp only at hdel
      simp only [deleteEmployee, hparam, hid, hres, hdel]
      rfl

/-- Instance of the C7 theorem on sample data. -/
theorem backend_failure_responses_witness :
    (getAllEmployees backendDown ⟨"aaaaaaaaaaaaaaaaaaaaaaaa", beaBody⟩ [ann]).resp
      = ⟨500, .text "connection reset"⟩ ∧
    (getEmployee backendDown ⟨"aaaaaaaaaaaaaaaaaaaaaaaa", beaBody⟩ [ann]).resp
      = ⟨500, .text "connection reset"⟩ ∧
    (updateEmployee backendDown ⟨"aaaaaaaaaaaaaaaaaaaaaaaa", beaBody⟩ [ann]).resp
      = ⟨500, .text "Internal Server Error"⟩ ∧
    (deleteEmployee backendDown ⟨"aaaaaaaaaaaaaaaaaaaaaaaa", beaBody⟩ [ann]).resp
      = ⟨500, .text "Internal Server Error"⟩ :=
  have h := backend_failure_responses backendDown ⟨"aaaaaaaaaaaaaaaaaaaaaaaa", beaBody⟩ [ann]
    (.other "connection reset")
  ⟨h.1 rfl, h.2.2.1 ⟨"", "Bea", 60000, 31⟩ rfl rfl,
    h.2.2.2.1 oidA ⟨"", "Bea", 60000, 31⟩ rfl rfl rfl (by decide),
    h.2.2.2.2 oidA rfl rfl⟩

/-! ## Identifiers are never rewritten -/

/-- C10: for every collection, environment and request: `getAllEmployees`
leaves the collection as it is; the create handler leaves it as it is or
appends one document, every stored document staying in place; `updateEmployee`
leaves it as it is or replaces, in place, the first document keyed by the path
id with one that has the same key and the name, salary and age of the body,
so the list of keys in order is the same and every other document is
unchanged; `deleteEmployee` leaves it as it is or takes out one document keyed
by the path id, every other document staying unchanged and in order. -/
theorem ids_are_immutable (env : Env) (req : Request) (db : Collection) :
    (getAllEmployees env req db).db = db ∧
    ((getEmployee env req db).db = db ∨
      ∃ d, (∀ x ∈ db, x._id ≠ d._id) ∧ (getEmployee env req db).db = db ++ [d]) ∧
    ((updateEmployee env req db).db = db ∨
      ∃ i e pre d post, ObjectIDFromHex req.id = .ok i ∧
        BodyParser req.body Employee.zero = .ok e ∧
        db = pre ++ d :: post ∧ d._id = .objectID i ∧
        (updateEmployee env req db).db = pre ++ ⟨d._id, e.Name, e.Salary, e.Age⟩ :: post) ∧
    (updateEmployee env req db).db.map (fun d => d._id) = db.map (fun d => d._id) ∧
    ((deleteEmployee env req db).db = db ∨
      ∃ i pre d post, ObjectIDFromHex req.id = .ok i ∧ d._id = .objectID i ∧
        db = pre ++ d :: post ∧ (deleteEmployee env req db).db = pre ++ post) := by
  have hall := getAllEmployees_db env req db
  have hcreate := getEmployee_db env req db
  have hupdate := updateEmployee_db env req db
  have hdelete := deleteEmployee_db env req db
  refine ⟨hall, hcreate, hupdate, ?_, hdelete⟩
  rcases hupdate with h | ⟨i, e, pre, d, post, _, _, hsplit, _, hdb⟩
  · rw [h]
  · rw [hdb, hsplit]
    simp

end EmployeeService
